import Mathlib

/-!
Verification development for the TFD market helper application.

The definitions below are shallow embeddings of the JavaScript source:
* string/number parsing helpers shared by the renderer (helper.js),
* the extraction controller's poll/scroll/parse loop (main.js, runSearch),
* the faceted filter predicate (helper.js, updateResults),
* the record store insertion (helper.js, window.appendModules),
* the filter profile manager (helper.js, profileManager).

JavaScript numbers are modelled as exact rationals, nullable values as
Option, and the asynchronous page surface as scripted input sequences.
-/

namespace TfdMarket

/-! ## Characters and strings -/

/-- Characters of a string lowercased, as JavaScript toLowerCase does for
the ASCII range handled by Char.toLower. -/
def lowerChars (s : String) : List Char := s.data.map Char.toLower

/-- Lowercased copy of a string (JavaScript s.toLowerCase()). -/
def toLowerStr (s : String) : String := String.mk (lowerChars s)

/-- Trim leading and trailing whitespace from a character list
(JavaScript String.prototype.trim). -/
def jsTrimChars (cs : List Char) : List Char :=
  ((cs.dropWhile Char.isWhitespace).reverse.dropWhile Char.isWhitespace).reverse

/-- JavaScript s.trim(). -/
def jsTrim (s : String) : String := String.mk (jsTrimChars s.data)

/-- Does the second list start with the first one? -/
def hasPfx : List Char → List Char → Bool
  | [], _ => true
  | _ :: _, [] => false
  | p :: ps, c :: cs => p == c && hasPfx ps cs

/-- Does the text contain the pattern as a contiguous sublist?
(JavaScript String.prototype.includes). -/
def subChars (pat : List Char) : List Char → Bool
  | [] => pat.isEmpty
  | c :: cs => hasPfx pat (c :: cs) || subChars pat cs

/-- JavaScript s.includes(pat) on strings. -/
def strContainsSub (s pat : String) : Bool := subChars pat.data s.data

/-- Numeric value of a decimal digit character. -/
def digitVal (c : Char) : ℕ := c.toNat - 48

/-- Value of a list of decimal digit characters, most significant first. -/
def digitsVal (ds : List Char) : ℚ :=
  ds.foldl (fun a c => 10 * a + (digitVal c : ℚ)) 0

/-- Value of the fractional digits after a decimal point. -/
def fracVal (ds : List Char) : ℚ := digitsVal ds / (10 : ℚ) ^ ds.length

/-- Integer value of a list of decimal digit characters. -/
def digitsValZ (ds : List Char) : ℤ :=
  ds.foldl (fun a c => 10 * a + (digitVal c : ℤ)) 0

/-! ## Age parsing (helper.js, parseAgeToDays / parseAgeToHours)

The JavaScript matches the regular expression
(\d+(?:\.\d+)?)\s*(day|days|hour|hours) against the lowercased input.
The scanner below is the deterministic equivalent: the digit run and the
whitespace run are maximal (no backtracking into them can ever help,
since the unit words start with a letter), and matching the prefix
"day" or "hour" decides the unit exactly as the ordered alternation does. -/

/-- Unit of a relative-age phrase. -/
inductive AgeUnit
  | day
  | hour
deriving DecidableEq, Repr

/-- Integer and fractional digit runs of a matched decimal numeral. -/
structure NumTok where
  intPart : List Char
  fracPart : List Char
deriving DecidableEq, Repr

/-- Rational value of a matched decimal numeral (JavaScript parseFloat on
the matched digits, exact). -/
def numTokVal (t : NumTok) : ℚ := digitsVal t.intPart + fracVal t.fracPart

/-- Try to match number-then-unit at the head of the character list. -/
def matchNumUnit (cs : List Char) : Option (NumTok × AgeUnit) :=
  let d1 := cs.takeWhile Char.isDigit
  if d1.isEmpty then none
  else
    let rest1 := cs.drop d1.length
    let tr : NumTok × List Char :=
      match rest1 with
      | '.' :: r2 =>
        let d2 := r2.takeWhile Char.isDigit
        if d2.isEmpty then (⟨d1, []⟩, rest1)
        else (⟨d1, d2⟩, r2.drop d2.length)
      | _ => (⟨d1, []⟩, rest1)
    let rest3 := tr.2.dropWhile Char.isWhitespace
    if hasPfx "day".data rest3 then some (tr.1, AgeUnit.day)
    else if hasPfx "hour".data rest3 then some (tr.1, AgeUnit.hour)
    else none

/-- Leftmost match of number-then-unit anywhere in the list. -/
def findNumUnit : List Char → Option (NumTok × AgeUnit)
  | [] => none
  | c :: cs =>
    match matchNumUnit (c :: cs) with
    | some r => some r
    | none => findNumUnit cs

/-- helper.js parseAgeToHours: hours stay as given, days are multiplied
by 24, unmatched strings give null. -/
def parseAgeToHours (s : String) : Option ℚ :=
  match findNumUnit (lowerChars s) with
  | some (t, AgeUnit.hour) => some (numTokVal t)
  | some (t, AgeUnit.day) => some (numTokVal t * 24)
  | none => none

/-- helper.js parseAgeToDays: days stay as given, hours are divided by 24,
unmatched strings give null. -/
def parseAgeToDays (s : String) : Option ℚ :=
  match findNumUnit (lowerChars s) with
  | some (t, AgeUnit.day) => some (numTokVal t)
  | some (t, AgeUnit.hour) => some (numTokVal t / 24)
  | none => none

example : parseAgeToHours "3 days ago" = some 72 := by
  have h : findNumUnit (lowerChars "3 days ago") = some (⟨['3'], []⟩, AgeUnit.day) := by decide
  have h3 : digitVal '3' = 3 := by decide
  rw [parseAgeToHours, h]
  norm_num [numTokVal, digitsVal, fracVal, h3]

example : parseAgeToHours "12 hours ago" = some 12 := by
  have h : findNumUnit (lowerChars "12 hours ago") = some (⟨['1', '2'], []⟩, AgeUnit.hour) := by
    decide
  have h1 : digitVal '1' = 1 := by decide
  have h2 : digitVal '2' = 2 := by decide
  rw [parseAgeToHours, h]
  norm_num [numTokVal, digitsVal, fracVal, h1, h2]

example : parseAgeToHours "recently" = none := by decide

/-! ## Data model -/

/-- One labeled stat line of a listing (spec: Stat). -/
structure Stat where
  raw : String
  positive : Bool
  negative : Bool
  value : String
deriving DecidableEq, Repr

/-- A normalized market listing (spec: ModuleRecord). The trailing fields
are the derived side-fields computed on insertion into the record store
(helper.js calls them __mrVal, __rerollVal, __ageDays, __ageHours,
attrValues, negAttributes, triggerValues). Freshly extracted records
carry empty/none placeholders for them. -/
structure ModuleRecord where
  name : String
  category : String
  socketType : String
  requiredRank : String
  price : String
  platform : String
  rerollCount : String
  sellerName : String
  sellerStatus : String
  sellerRank : String
  regDate : String
  attributes : List String
  stats : List Stat
  negAttributes : List String
  attrValues : List (String × Option ℚ)
  triggerValues : List (String × Option ℚ)
  mrVal : Option ℤ
  rerollVal : Option ℤ
  ageDays : Option ℚ
  ageHours : Option ℚ
deriving DecidableEq, Repr

/-- A record with every field empty, for building test inputs. -/
def emptyRecord : ModuleRecord :=
  ⟨"", "", "", "", "", "", "", "", "", "", "", [], [], [], [], [], none, none, none, none⟩

/-! ## Extraction controller polling loop (main.js, runSearch)

The automated page surface is scripted: parse passes are an input
sequence of results or thrown exceptions, scroll passes an input
sequence of optional exceptions, and the elapsed milliseconds observed
at each zero-result timeout check are an input sequence of numbers. -/

/-- Result of one injected parse pass, as produced by the parse script:
one module per DOM item, so the reported itemCount equals the length of
the module list, plus the loader visibility flag. -/
structure ParseResult where
  modules : List ModuleRecord
  loaderVisible : Bool
deriving DecidableEq, Repr

/-- itemCount reported by the parse script (items.length). -/
def itemCount (p : ParseResult) : ℕ := p.modules.length

/-- Dedup identity key (main.js: mod.name|mod.price|mod.sellerName). -/
def moduleKey (m : ModuleRecord) : String :=
  m.name ++ "|" ++ m.price ++ "|" ++ m.sellerName

/-- Merge a parsed batch into the seen-key set and the deduped list,
in batch order (main.js inner for loop over parsedResult.modules). -/
def mergeMods : List String → List ModuleRecord → List ModuleRecord →
    List String × List ModuleRecord
  | seen, ded, [] => (seen, ded)
  | seen, ded, m :: ms =>
    if seen.contains (moduleKey m) then mergeMods seen ded ms
    else mergeMods (seen ++ [moduleKey m]) (ded ++ [m]) ms

/-- Case-insensitive module-name substring filter applied to snapshots
(main.js: filtered = deduped.filter(m onto name includes mName)). -/
def filterByName (moduleName : String) (l : List ModuleRecord) : List ModuleRecord :=
  let mName := toLowerStr (jsTrim moduleName)
  if mName = "" then l
  else l.filter (fun m => (m.name != "") && strContainsSub (toLowerStr m.name) mName)

/-- A search-updated event sent to the renderer. -/
structure Snapshot where
  data : List ModuleRecord
  finished : Bool
  error : Option String
deriving DecidableEq, Repr

/-- Loop-carried state of the polling loop. -/
structure LoopState where
  seen : List String
  deduped : List ModuleRecord
  lastCount : ℕ
  stable : ℕ
deriving Repr

/-- Initial loop state (seen = empty set, deduped = [], lastCount = 0,
stable = 0). -/
def initLoopState : LoopState := ⟨[], [], 0, 0⟩

/-- The terminal snapshot sent when the zero-result timeout fires. -/
def timeoutSnap : Snapshot := ⟨[], true, some "timeout"⟩

/-- How the polling loop ended. -/
inductive LoopExit
  | stable
  | parseErr
  | timeout
  | scrollErr (msg : String)
  | cap
deriving DecidableEq, Repr

/-- Result of running the polling loop: final loop state, snapshots
emitted during the loop, number of poll iterations entered, exit kind. -/
structure LoopResult where
  state : LoopState
  snaps : List Snapshot
  polls : ℕ
  exit : LoopExit

/-- The loop state after processing one successful parse pass: merged
seen/deduped collections, and the stability counter incremented when the
visible item count is unchanged from the previous iteration, else reset
to 0 with the new count recorded. -/
def nextState (st : LoopState) (p : ParseResult) : LoopState :=
  ⟨(mergeMods st.seen st.deduped p.modules).1,
   (mergeMods st.seen st.deduped p.modules).2,
   if itemCount p = st.lastCount then st.lastCount else itemCount p,
   if itemCount p = st.lastCount then st.stable + 1 else 0⟩

/-- The incremental snapshot emitted after merging one parse pass. -/
def pollSnap (moduleName : String) (st : LoopState) (p : ParseResult) : Snapshot :=
  ⟨filterByName moduleName (nextState st p).deduped, false, none⟩

/-- One-to-one embedding of the main.js polling loop body
(for i in 0..59): parse, merge and dedup, emit an incremental snapshot,
update the stability counter against the previous visible count, break
once the counter reaches 3 with the loader hidden, abort with a
timeout snapshot when nothing was collected and over 30000 ms elapsed,
otherwise scroll and continue. A thrown parse pass breaks the loop; a
thrown scroll pass escapes to the outer catch. -/
def runPoll (polls : ℕ → Except String ParseResult) (scrolls : ℕ → Option String)
    (times : ℕ → ℕ) (moduleName : String) : ℕ → ℕ → LoopState → LoopResult
  | _, 0, st => ⟨st, [], 0, LoopExit.cap⟩
  | i, fuel + 1, st =>
    match polls i with
    | Except.error _ => ⟨st, [], 1, LoopExit.parseErr⟩
    | Except.ok p =>
      if 3 ≤ (nextState st p).stable ∧ p.loaderVisible = false then
        ⟨nextState st p, [pollSnap moduleName st p], 1, LoopExit.stable⟩
      else if (nextState st p).deduped = [] ∧ 30000 < times i then
        ⟨nextState st p, [pollSnap moduleName st p, timeoutSnap], 1, LoopExit.timeout⟩
      else
        match scrolls i with
        | some e => ⟨nextState st p, [pollSnap moduleName st p], 1, LoopExit.scrollErr e⟩
        | none =>
          let r := runPoll polls scrolls times moduleName (i + 1) fuel (nextState st p)
          ⟨r.state, pollSnap moduleName st p :: r.snaps, r.polls + 1, r.exit⟩

/-- Exit classification of a whole search run. -/
inductive SearchExit
  | setupError
  | stable
  | parseError
  | timeout
  | scrollError
  | cap
deriving DecidableEq, Repr

/-- Observable outcome of a search: snapshots sent to the renderer in
order, number of poll iterations entered, and the exit kind. -/
structure SearchRun where
  snapshots : List Snapshot
  pollCount : ℕ
  exit : SearchExit

/-- The finalize snapshot (finished = true, no error field), applying the
same name-substring filter over the deduped set. -/
def finalSnap (moduleName : String) (ded : List ModuleRecord) : Snapshot :=
  ⟨filterByName moduleName ded, true, none⟩

/-- main.js runSearch: a thrown setup step reaches the outer catch, which
emits a terminal error snapshot; otherwise the polling loop runs with
fuel 60 and, unless it returned (timeout) or threw out of the loop
(scroll), falls through to the finalize snapshot. The setup input is the
exception message of the first failing setup injection, if any. -/
def runSearch (setup : Option String) (polls : ℕ → Except String ParseResult)
    (scrolls : ℕ → Option String) (times : ℕ → ℕ) (moduleName : String) : SearchRun :=
  match setup with
  | some msg => ⟨[⟨[], true, some msg⟩], 0, SearchExit.setupError⟩
  | none =>
    let r := runPoll polls scrolls times moduleName 0 60 initLoopState
    match r.exit with
    | LoopExit.timeout => ⟨r.snaps, r.polls, SearchExit.timeout⟩
    | LoopExit.scrollErr e => ⟨r.snaps ++ [⟨[], true, some e⟩], r.polls, SearchExit.scrollError⟩
    | LoopExit.stable =>
      ⟨r.snaps ++ [finalSnap moduleName r.state.deduped], r.polls, SearchExit.stable⟩
    | LoopExit.parseErr =>
      ⟨r.snaps ++ [finalSnap moduleName r.state.deduped], r.polls, SearchExit.parseError⟩
    | LoopExit.cap =>
      ⟨r.snaps ++ [finalSnap moduleName r.state.deduped], r.polls, SearchExit.cap⟩

/-! ## Faceted query engine (helper.js, updateResults)

The module-level filter globals of helper.js are collected into one
state record; the filter predicate below is the body of
modules.filter(...) in updateResults, split into one definition per
match variable of the source. -/

/-- A per-attribute numeric min/max range ({min, max} objects). -/
structure RangeQ where
  min : Option ℚ
  max : Option ℚ
deriving DecidableEq, Repr

/-- Lookup in an association list keyed by strings (JavaScript object
property access, none = missing/undefined). -/
def assocFind {α : Type} (l : List (String × α)) (k : String) : Option α :=
  match l.find? (fun p => p.1 == k) with
  | some p => some p.2
  | none => none

/-- The filter globals of helper.js, one field per module-level variable,
plus the active category buttons, the mode flag, whether the
triggerAttrMap object has been created (its JavaScript truthiness), and
the sort dropdown value (none when the element is absent). -/
structure FilterState where
  activeCats : List String
  selectedAttrs : List String
  selectedAttrRanges : List (String × RangeQ)
  selectedSockets : List String
  selectedPlatforms : List String
  priceMinVal : Option ℚ
  priceMaxVal : Option ℚ
  mrMinVal : Option ℤ
  mrMaxVal : Option ℤ
  rerollMinVal : Option ℤ
  rerollMaxVal : Option ℤ
  selectedStatuses : List String
  ageMinVal : Option ℚ
  ageMaxVal : Option ℚ
  ageHoursMinVal : Option ℚ
  ageHoursMaxVal : Option ℚ
  sellerFilterVal : String
  selectedNegAttrs : List String
  selectedModuleNames : List String
  triggerFilterValues : List (String × RangeQ)
  isTriggerMode : Bool
  triggerAttrBuilt : Bool
  sortVal : Option String
deriving DecidableEq, Repr

/-- The filter state with every filter empty and the default sort
(sortSelect.value is set to priceDesc during initializeUI). -/
def neutralFilterState : FilterState :=
  ⟨[], [], [], [], [], none, none, none, none, none, none, [], none, none, none, none,
    "", [], [], [], false, false, some "priceDesc"⟩

/-- Characters kept by the price cleanup replace(/[^0-9.]/g, ''). -/
def stripNonPriceChars (s : String) : List Char :=
  s.data.filter (fun c => c.isDigit || c == '.')

/-- JavaScript parseFloat on a character list containing only digits and
dots: leading digits, then an optional fraction; NaN (none) when no
digit is read before the second dot. -/
def jsParseFloatQ (cs : List Char) : Option ℚ :=
  let d1 := cs.takeWhile Char.isDigit
  let rest := cs.drop d1.length
  match rest with
  | '.' :: r2 =>
    let d2 := r2.takeWhile Char.isDigit
    if d1.isEmpty && d2.isEmpty then none
    else some (digitsVal d1 + fracVal d2)
  | _ => if d1.isEmpty then none else some (digitsVal d1)

/-- parseFloat((mod.price or '').replace(/[^0-9.]/g, '')). -/
def parsePriceQ (s : String) : Option ℚ := jsParseFloatQ (stripNonPriceChars s)

/-- Category membership check (catMatch). -/
def catMatchB (st : FilterState) (m : ModuleRecord) : Bool :=
  st.activeCats.isEmpty || st.activeCats.contains m.category

/-- The configured range for a selected attribute
(selectedAttrRanges[attr] or {}). -/
def selRange (st : FilterState) (attr : String) : RangeQ :=
  (assocFind st.selectedAttrRanges attr).getD ⟨none, none⟩

/-- The parsed numeric value a record holds for an attribute
(mod.attrValues[attr], none for missing or null). -/
def attrValOf (m : ModuleRecord) (attr : String) : Option ℚ :=
  Option.join (assocFind m.attrValues attr)

/-- The parsed trigger value a record holds for an attribute
(mod.triggerValues[attr], none for missing or null). -/
def trigValOf (m : ModuleRecord) (attr : String) : Option ℚ :=
  Option.join (assocFind m.triggerValues attr)

/-- The per-attribute body of the selected-attribute loop: the record
must possess the attribute; a configured min (resp. max) bound excludes
the record only when a parsed numeric value is present and lies below
(resp. above) the bound. -/
def attrOk (st : FilterState) (m : ModuleRecord) (attr : String) : Bool :=
  m.attributes.contains attr &&
  ((match (selRange st attr).min, attrValOf m attr with
    | some mn, some v => if v < mn then false else true
    | _, _ => true) &&
   (match (selRange st attr).max, attrValOf m attr with
    | some mx, some v => if v > mx then false else true
    | _, _ => true))

/-- Selected-attribute filter (attrMatch): all selected attributes must
pass, the loop breaking at the first failure. -/
def attrMatchB (st : FilterState) (m : ModuleRecord) : Bool :=
  st.selectedAttrs.all (attrOk st m)

/-- Socket set-membership (socketMatch). -/
def socketMatchB (st : FilterState) (m : ModuleRecord) : Bool :=
  st.selectedSockets.isEmpty || st.selectedSockets.contains m.socketType

/-- Platform set-membership (platformMatch). -/
def platformMatchB (st : FilterState) (m : ModuleRecord) : Bool :=
  st.selectedPlatforms.isEmpty || st.selectedPlatforms.contains m.platform

/-- Price range (priceMatch): records whose price has no parsed number
always pass. -/
def priceMatchB (st : FilterState) (m : ModuleRecord) : Bool :=
  match parsePriceQ m.price with
  | none => true
  | some pn =>
    (match st.priceMinVal with
     | some mn => if pn < mn then false else true
     | none => true) &&
    (match st.priceMaxVal with
     | some mx => if pn > mx then false else true
     | none => true)

/-- Required mastery rank range (mrMatch), disabled in trigger mode; a
missing __mrVal fails an active bound. -/
def mrMatchB (st : FilterState) (m : ModuleRecord) : Bool :=
  if st.isTriggerMode then true
  else
    (match st.mrMinVal with
     | some mn => match m.mrVal with
       | none => false
       | some v => if v < mn then false else true
     | none => true) &&
    (match st.mrMaxVal with
     | some mx => match m.mrVal with
       | none => false
       | some v => if v > mx then false else true
     | none => true)

/-- Reroll count range (rerollMatch), disabled in trigger mode. -/
def rerollMatchB (st : FilterState) (m : ModuleRecord) : Bool :=
  if st.isTriggerMode then true
  else
    (match st.rerollMinVal with
     | some mn => match m.rerollVal with
       | none => false
       | some v => if v < mn then false else true
     | none => true) &&
    (match st.rerollMaxVal with
     | some mx => match m.rerollVal with
       | none => false
       | some v => if v > mx then false else true
     | none => true)

/-- Status set-membership, case-insensitive (statusMatch). -/
def statusMatchB (st : FilterState) (m : ModuleRecord) : Bool :=
  if st.selectedStatuses.isEmpty then true
  else st.selectedStatuses.any (fun s => toLowerStr s == toLowerStr m.sellerStatus)

/-- Age range in days (ageMatch). -/
def ageMatchB (st : FilterState) (m : ModuleRecord) : Bool :=
  (match st.ageMinVal with
   | some mn => match m.ageDays with
     | none => false
     | some v => if v < mn then false else true
   | none => true) &&
  (match st.ageMaxVal with
   | some mx => match m.ageDays with
     | none => false
     | some v => if v > mx then false else true
   | none => true)

/-- Age range in hours (ageHoursMatch). -/
def ageHoursMatchB (st : FilterState) (m : ModuleRecord) : Bool :=
  (match st.ageHoursMinVal with
   | some mn => match m.ageHours with
     | none => false
     | some v => if v < mn then false else true
   | none => true) &&
  (match st.ageHoursMaxVal with
   | some mx => match m.ageHours with
     | none => false
     | some v => if v > mx then false else true
   | none => true)

/-- Seller substring filter, case-insensitive (sellerMatch); the stored
filter value is already trimmed and lowercased by its input handler. -/
def sellerMatchB (st : FilterState) (m : ModuleRecord) : Bool :=
  if st.sellerFilterVal == "" then true
  else strContainsSub (toLowerStr m.sellerName) st.sellerFilterVal

/-- Trigger-mode per-attribute min/max filter (triggerMatch): active only
when in trigger mode with the triggerAttrMap object present; a missing
or null parsed value fails any active bound. -/
def triggerMatchB (st : FilterState) (m : ModuleRecord) : Bool :=
  if st.isTriggerMode && st.triggerAttrBuilt then
    st.triggerFilterValues.all (fun pr =>
      (match pr.2.min with
       | some mn => match trigValOf m pr.1 with
         | none => false
         | some v => if v < mn then false else true
       | none => true) &&
      (match pr.2.max with
       | some mx => match trigValOf m pr.1 with
         | none => false
         | some v => if v > mx then false else true
       | none => true))
  else true

/-- Negative-attribute exclusion (negFilterMatch): a record carrying any
selected negative attribute fails. -/
def negFilterMatchB (st : FilterState) (m : ModuleRecord) : Bool :=
  if st.selectedNegAttrs.isEmpty then true
  else !(st.selectedNegAttrs.any (fun a => m.negAttributes.contains a))

/-- Module-name inclusion (moduleMatch), ancestor mode only. -/
def moduleMatchB (st : FilterState) (m : ModuleRecord) : Bool :=
  if !st.isTriggerMode && !st.selectedModuleNames.isEmpty then
    st.selectedModuleNames.contains m.name
  else true

/-- The whole filter predicate: the conjunction returned by the filter
callback of updateResults, in source order. -/
def modPasses (st : FilterState) (m : ModuleRecord) : Bool :=
  catMatchB st m && attrMatchB st m && socketMatchB st m && platformMatchB st m &&
  priceMatchB st m && mrMatchB st m && rerollMatchB st m && statusMatchB st m &&
  ageMatchB st m && ageHoursMatchB st m && triggerMatchB st m && negFilterMatchB st m &&
  sellerMatchB st m && moduleMatchB st m

/-- The filtered record list computed by updateResults (before sorting,
which permutes but never changes membership). -/
def updateResultsFiltered (st : FilterState) (mods : List ModuleRecord) : List ModuleRecord :=
  mods.filter (modPasses st)

/-! ## Record store (helper.js, window.appendModules)

appendModules deduplicates on (name, price, sellerName) and computes all
derived side-fields for a newly stored record. The per-stat string
processing (split on whitespace runs, drop the trailing value token,
strip sign markers, cut at the bracket) is embedded below. -/

/-- Accumulator-based splitter for String.prototype.split(/\s+/) applied
to trimmed input: whitespace runs separate words. -/
def wordsAux : List Char → List Char → List (List Char)
  | acc, [] => if acc.isEmpty then [] else [acc.reverse]
  | acc, c :: cs =>
    if c.isWhitespace then
      if acc.isEmpty then wordsAux [] cs else acc.reverse :: wordsAux [] cs
    else wordsAux (c :: acc) cs

/-- Words of a (trimmed, nonempty) character list, as split(/\s+/). -/
def wordsOf (cs : List Char) : List (List Char) := wordsAux [] cs

/-- parts.join(' '). -/
def joinSpace (ws : List (List Char)) : List Char := List.intercalate [' '] ws

/-- label.split(sep)[0]: the characters before the first separator. -/
def beforeChar (sep : Char) (cs : List Char) : List Char :=
  cs.takeWhile (fun c => !(c == sep))

/-- Strip a literal leading (+) or (-) marker and re-trim, as the
appendModules attribute naming does. -/
def stripSignMarker (cs : List Char) : List Char :=
  if hasPfx "(+)".data cs || hasPfx "(-)".data cs then jsTrimChars (cs.drop 3) else cs

/-- Match the pattern digits-optionally-dot-digits at the head of the list, returning the
digit runs and the matched length. -/
def numPart (cs : List Char) : Option (NumTok × ℕ) :=
  let d1 := cs.takeWhile Char.isDigit
  if d1.isEmpty then none
  else
    let rest := cs.drop d1.length
    match rest with
    | '.' :: r2 =>
      let d2 := r2.takeWhile Char.isDigit
      if d2.isEmpty then some (⟨d1, []⟩, d1.length)
      else some (⟨d1, d2⟩, d1.length + 1 + d2.length)
    | _ => some (⟨d1, []⟩, d1.length)

/-- Match an optionally negated decimal numeral at the head of the list: an optional
minus sign must be followed by digits, else the position fails. -/
def signedNumAt (cs : List Char) : Option (ℚ × ℕ) :=
  match cs with
  | '-' :: rest =>
    match numPart rest with
    | some (t, len) => some (-(numTokVal t), len + 1)
    | none => none
  | _ =>
    match numPart cs with
    | some (t, len) => some (numTokVal t, len)
    | none => none

/-- Leftmost match of an optionally negated decimal numeral (String.prototype.match
without the g flag, then parseFloat). -/
def findSignedNum : List Char → Option ℚ
  | [] => none
  | c :: cs =>
    match signedNumAt (c :: cs) with
    | some (v, _) => some v
    | none => findSignedNum cs

/-- Leftmost match of an unsigned decimal numeral (the pattern used on
trigger value tokens). -/
def findUnsignedNum : List Char → Option ℚ
  | [] => none
  | c :: cs =>
    match numPart (c :: cs) with
    | some (t, _) => some (numTokVal t)
    | none => findUnsignedNum cs

/-- All non-overlapping matches of the signed numeral pattern with the g flag, in order. -/
def findAllSignedNums : List Char → List ℚ
  | [] => []
  | c :: cs =>
    match signedNumAt (c :: cs) with
    | some (v, len) => v :: findAllSignedNums (cs.drop (len - 1))
    | none => findAllSignedNums cs
termination_by cs => cs.length
decreasing_by
  · simp only [List.length_cons, List.length_drop]
    omega
  · simp only [List.length_cons]
    omega

/-- Average of all numbers found in a token, none when there are none
(the fallback used when a stat has no explicit value). -/
def avgAllNums (cs : List Char) : Option ℚ :=
  let ns := findAllSignedNums cs
  if ns.isEmpty then none else some (ns.sum / ns.length)

/-- JavaScript object property assignment on an association list:
overwrite an existing key in place, else append. -/
def assocSet {α : Type} (l : List (String × α)) (k : String) (v : α) : List (String × α) :=
  if l.any (fun p => p.1 == k) then
    l.map (fun p => if p.1 == k then (k, v) else p)
  else l ++ [(k, v)]

/-- The negative-attribute name derived from one stat raw line in
appendModules: drop the trailing token, cut at the first bracket, strip
a sign marker; none when the stat is not negative or the name is empty. -/
def negAttrOfStat (stat : Stat) : Option String :=
  if stat.negative then
    let raw := jsTrimChars stat.raw.data
    if raw.isEmpty then none
    else
      let parts := wordsOf raw
      let label := joinSpace parts.dropLast
      let an := stripSignMarker (jsTrimChars (beforeChar '[' label))
      if an.isEmpty then none else some (String.mk an)
  else none

/-- Negative attributes of a record as computed on append: first-seen
order, no duplicates, starting from the record's existing list. -/
def computeNegAttributes (m : ModuleRecord) : List String :=
  m.stats.foldl (fun acc stat =>
    match negAttrOfStat stat with
    | some a => if acc.contains a then acc else acc ++ [a]
    | none => acc) m.negAttributes

/-- The (attribute name, parsed value) pair contributed by one stat in
appendModules: name from the cleaned label, value from the explicit
value string when it contains a number, else the average of the numbers
in the trailing token. -/
def statAttrValue (stat : Stat) : Option (String × Option ℚ) :=
  let raw := jsTrimChars stat.raw.data
  if raw.isEmpty then none
  else
    let parts := wordsOf raw
    let lastToken := (parts.getLast?).getD []
    let cleanLabel := stripSignMarker (joinSpace parts.dropLast)
    let attrName := jsTrimChars (beforeChar '[' cleanLabel)
    if attrName.isEmpty then none
    else
      let valStr := jsTrimChars stat.value.data
      let fromVal := if valStr.isEmpty then none else findSignedNum valStr
      let avg := match fromVal with
        | some q => some q
        | none => avgAllNums lastToken
      some (String.mk attrName, avg)

/-- attrValues of a record as computed on append. -/
def computeAttrValues (m : ModuleRecord) : List (String × Option ℚ) :=
  m.stats.foldl (fun acc stat =>
    match statAttrValue stat with
    | some (k, v) => assocSet acc k v
    | none => acc) m.attrValues

/-- The (attribute name, parsed value) pair contributed by one stat to
triggerValues: label cut at the first parenthesis, value from the
unsigned number in the trailing token; note there is no empty-name
guard in this branch of the source. -/
def statTriggerValue (stat : Stat) : Option (String × Option ℚ) :=
  let raw := jsTrimChars stat.raw.data
  if raw.isEmpty then none
  else
    let parts := wordsOf raw
    let valueStr := (parts.getLast?).getD []
    let label := joinSpace parts.dropLast
    let attrName := jsTrimChars (beforeChar '(' label)
    some (String.mk attrName, findUnsignedNum valueStr)

/-- triggerValues of a record as computed on append in trigger mode. -/
def computeTriggerValues (m : ModuleRecord) : List (String × Option ℚ) :=
  m.stats.foldl (fun acc stat =>
    match statTriggerValue stat with
    | some (k, v) => assocSet acc k v
    | none => acc) m.triggerValues

/-- parseInt(s.replace(/[^0-9]/g, ''), 10): none when no digit remains. -/
def jsParseIntDigits (s : String) : Option ℤ :=
  let ds := s.data.filter Char.isDigit
  if ds.isEmpty then none else some (digitsValZ ds)

/-- __mrVal: parsed required rank, none for an empty field or a field
with no digits. -/
def computeMrVal (s : String) : Option ℤ :=
  if s == "" then none else jsParseIntDigits s

/-- __rerollVal: empty field gives none; a trimmed "-" or "" gives 0;
otherwise the digits are parsed. -/
def computeRerollVal (s : String) : Option ℤ :=
  if s == "" then none
  else
    let cleaned := jsTrim s
    if cleaned == "-" || cleaned == "" then some 0
    else jsParseIntDigits cleaned

/-- All derived side-fields computed when appendModules stores a new
record; triggerValues only in trigger mode, as in the source. -/
def enrichModule (isTrig : Bool) (m : ModuleRecord) : ModuleRecord :=
  { m with
    negAttributes := computeNegAttributes m
    attrValues := computeAttrValues m
    mrVal := computeMrVal m.requiredRank
    rerollVal := computeRerollVal m.rerollCount
    ageDays := parseAgeToDays m.regDate
    ageHours := parseAgeToHours m.regDate
    triggerValues := if isTrig then computeTriggerValues m else m.triggerValues }

/-- Do two records agree on the dedup identity
(name, price, sellerName)? -/
def sameIdentity (m r : ModuleRecord) : Bool :=
  m.name == r.name && m.price == r.price && m.sellerName == r.sellerName

/-- One insertion step of window.appendModules: skip nameless records,
skip records whose identity is already stored, otherwise enrich and
append. -/
def appendModule (isTrig : Bool) (store : List ModuleRecord) (m : ModuleRecord) :
    List ModuleRecord :=
  if m.name == "" then store
  else if store.any (fun x => sameIdentity x m) then store
  else store ++ [enrichModule isTrig m]

/-- window.appendModules over a batch, in order. -/
def appendModules (isTrig : Bool) (store : List ModuleRecord)
    (newData : List ModuleRecord) : List ModuleRecord :=
  newData.foldl (appendModule isTrig) store

/-! ## Filter profile manager (helper.js, profileManager)

getState captures the filter globals into a profile snapshot (note: the
active category buttons, socket and platform selections are NOT
captured); isCurrentStateDirty compares JSON serializations, which for
this typed state is structural equality; hasAnyFilterSet checks each
captured field except the sort key; updateButtons enables the save
control from one of the two, depending on whether a profile is
selected. -/

/-- The object returned by profileManager.getState, field for field. -/
structure ProfileState where
  priceMin : Option ℚ
  priceMax : Option ℚ
  mrMin : Option ℤ
  mrMax : Option ℤ
  rerollMin : Option ℤ
  rerollMax : Option ℤ
  ageMin : Option ℚ
  ageMax : Option ℚ
  ageHoursMin : Option ℚ
  ageHoursMax : Option ℚ
  seller : String
  statuses : List String
  attributes : List String
  attributeRanges : List (String × RangeQ)
  negAttributes : List String
  moduleNames : List String
  triggerFilters : Option (List (String × RangeQ))
  sort : Option String
deriving DecidableEq, Repr

/-- profileManager.getState: capture the current filter globals;
triggerFilters is null outside trigger mode; sort reads the dropdown. -/
def getState (st : FilterState) : ProfileState :=
  ⟨st.priceMinVal, st.priceMaxVal, st.mrMinVal, st.mrMaxVal, st.rerollMinVal,
   st.rerollMaxVal, st.ageMinVal, st.ageMaxVal, st.ageHoursMinVal, st.ageHoursMaxVal,
   st.sellerFilterVal, st.selectedStatuses, st.selectedAttrs, st.selectedAttrRanges,
   st.selectedNegAttrs, st.selectedModuleNames,
   if st.isTriggerMode then some st.triggerFilterValues else none, st.sortVal⟩

/-- profileManager.isCurrentStateDirty: JSON.stringify(getState()) differs
from JSON.stringify(currentProfileState or null). -/
def isCurrentStateDirty (st : FilterState) (saved : Option ProfileState) : Bool :=
  !(some (getState st) == saved)

/-- profileManager.hasAnyFilterSet: some captured filter field is set —
numeric fields non-null (rank and reroll only outside trigger mode),
seller non-blank after trimming, a non-empty selection list, or (in
trigger mode) a trigger range with a bound. The sort key is not
checked. -/
def hasAnyFilterSet (st : FilterState) : Bool :=
  let state := getState st
  state.priceMin.isSome || state.priceMax.isSome ||
  (!st.isTriggerMode &&
    (state.mrMin.isSome || state.mrMax.isSome ||
     state.rerollMin.isSome || state.rerollMax.isSome)) ||
  state.ageMin.isSome || state.ageMax.isSome ||
  state.ageHoursMin.isSome || state.ageHoursMax.isSome ||
  (jsTrim state.seller != "") ||
  !state.statuses.isEmpty || !state.attributes.isEmpty ||
  !state.negAttributes.isEmpty || !state.moduleNames.isEmpty ||
  (st.isTriggerMode &&
    (match state.triggerFilters with
     | some l => l.any (fun pr => pr.2.min.isSome || pr.2.max.isSome)
     | none => false))

/-- profileManager.updateButtons: the save control is enabled (disabled =
false) iff the current state is dirty against the selected profile, or —
with no profile selected — iff any filter is set. -/
def saveEnabled (selected : Bool) (saved : Option ProfileState) (st : FilterState) : Bool :=
  if selected then isCurrentStateDirty st saved else hasAnyFilterSet st

/-- profileManager.applyState: write a saved profile back into the filter
globals. Rank and reroll bounds are only applied outside trigger mode;
trigger ranges are only applied in trigger mode (and cleared otherwise);
the sort dropdown is only written when it exists and the saved sort is a
non-empty string. The category, socket and platform selections are not
touched. -/
def applyState (st : FilterState) (state : ProfileState) : FilterState :=
  { st with
    priceMinVal := state.priceMin
    priceMaxVal := state.priceMax
    mrMinVal := if st.isTriggerMode then st.mrMinVal else state.mrMin
    mrMaxVal := if st.isTriggerMode then st.mrMaxVal else state.mrMax
    rerollMinVal := if st.isTriggerMode then st.rerollMinVal else state.rerollMin
    rerollMaxVal := if st.isTriggerMode then st.rerollMaxVal else state.rerollMax
    ageMinVal := state.ageMin
    ageMaxVal := state.ageMax
    ageHoursMinVal := state.ageHoursMin
    ageHoursMaxVal := state.ageHoursMax
    sellerFilterVal := state.seller
    selectedStatuses := state.statuses
    selectedAttrs := state.attributes
    selectedAttrRanges := state.attributeRanges
    selectedNegAttrs := state.negAttributes
    selectedModuleNames := state.moduleNames
    triggerFilterValues := if st.isTriggerMode then state.triggerFilters.getD [] else []
    sortVal :=
      match st.sortVal, state.sort with
      | some cur, some s => if s == "" then some cur else some s
      | cur, _ => cur }

/-! Spec-side notions for the profile dirty-state claim. -/

/-- The spec's FacetState as far as the dirty-state claim is concerned:
the captured profile fields together with the active category set, which
the spec includes in FacetState. -/
structure SpecFacetState where
  base : ProfileState
  activeCats : List String
deriving DecidableEq, Repr

/-- The live facet state in the spec's sense. -/
def specLiveState (st : FilterState) : SpecFacetState :=
  ⟨getState st, st.activeCats⟩

/-- The dirty-state contract exactly as the spec states it, for a live
state, a saved spec-level facet state, and the profile snapshot the code
actually stored for that same live state: the save control is enabled
iff the live facet state differs from the saved one (profile selected)
or from the neutral state (no profile selected). -/
def claimC7Stated (selected : Bool) (savedSpec : SpecFacetState)
    (savedCode : Option ProfileState) (st : FilterState) : Prop :=
  saveEnabled selected savedCode st = true ↔
    ((selected = true ∧ specLiveState st ≠ savedSpec) ∨
     (selected = false ∧ specLiveState st ≠ specLiveState neutralFilterState))

/-- Spec-level reading of hasAnyFilterSet, for the amended claim: some
mode-applicable captured filter field other than the sort key is set. -/
def anyFieldSetSpec (st : FilterState) : Prop :=
  st.priceMinVal ≠ none ∨ st.priceMaxVal ≠ none ∨
  (st.isTriggerMode = false ∧
    (st.mrMinVal ≠ none ∨ st.mrMaxVal ≠ none ∨
     st.rerollMinVal ≠ none ∨ st.rerollMaxVal ≠ none)) ∨
  st.ageMinVal ≠ none ∨ st.ageMaxVal ≠ none ∨
  st.ageHoursMinVal ≠ none ∨ st.ageHoursMaxVal ≠ none ∨
  jsTrim st.sellerFilterVal ≠ "" ∨
  st.selectedStatuses ≠ [] ∨ st.selectedAttrs ≠ [] ∨
  st.selectedNegAttrs ≠ [] ∨ st.selectedModuleNames ≠ [] ∨
  (st.isTriggerMode = true ∧
    ∃ pr ∈ st.triggerFilterValues, pr.2.min ≠ none ∨ pr.2.max ≠ none)

/-- Conditions under which writing a saved sort value back to the sort
dropdown round-trips: an absent saved sort requires an absent dropdown,
and a present saved sort must be non-empty with the dropdown present. -/
def sortApplies (st : FilterState) (p : ProfileState) : Prop :=
  (p.sort = none → st.sortVal = none) ∧
  (∀ s, p.sort = some s → s ≠ "" ∧ st.sortVal ≠ none)

/-! ## Concrete fixtures for witnesses and counterexamples -/

/-- The ten decimal digit characters. -/
def digitChars : List Char := ['0', '1', '2', '3', '4', '5', '6', '7', '8', '9']

/-- A record with only a name. -/
def namedRecord (n : String) : ModuleRecord := { emptyRecord with name := n }

/-- Five records with distinct identities. -/
def recsW : List ModuleRecord :=
  [namedRecord "a", namedRecord "b", namedRecord "c", namedRecord "d", namedRecord "e"]

/-- Scripted page surface: every parse pass finds the same five items
with the loader hidden. -/
def pollsStableW : ℕ → Except String ParseResult := fun _ => Except.ok ⟨recsW, false⟩

/-- Scripted page surface: scrolling never throws. -/
def scrollsNoneW : ℕ → Option String := fun _ => none

/-- Scripted clock that never reaches the timeout threshold. -/
def timesZeroW : ℕ → ℕ := fun _ => 0

/-- Scripted page surface: every parse pass finds nothing, loader shown. -/
def pollsEmptyW : ℕ → Except String ParseResult := fun _ => Except.ok ⟨[], true⟩

/-- Scripted clock gaining 10 seconds per poll: the check of iteration 3
is the first past 30000 ms. -/
def timesRampW : ℕ → ℕ := fun j => 10000 * (j + 1)

/-- Scripted page surface whose parse pass always throws. -/
def pollsErrW : ℕ → Except String ParseResult := fun _ => Except.error "boom"

/-- A record possessing attribute Power with parsed value 10.0. -/
def powerRecord : ModuleRecord :=
  { emptyRecord with attributes := ["Power"], attrValues := [("Power", some 10)] }

/-- A record possessing attribute Power with a null parsed value. -/
def powerRecordNoVal : ModuleRecord :=
  { emptyRecord with attributes := ["Power"], attrValues := [("Power", none)] }

/-- A state selecting attribute Power with the given range. -/
def stRange (r : RangeQ) : FilterState :=
  { neutralFilterState with selectedAttrs := ["Power"], selectedAttrRanges := [("Power", r)] }

/-- A trigger-mode state with no filters configured. -/
def stTrigW : FilterState := { neutralFilterState with isTriggerMode := true }

/-- A trigger-mode state with a min bound on one discovered attribute. -/
def stTrigMinW : FilterState :=
  { neutralFilterState with
    isTriggerMode := true
    triggerAttrBuilt := true
    triggerFilterValues := [("Fire Rate", ⟨some 1, none⟩)] }

/-- A record lacking a parsed value for the filtered trigger attribute. -/
def trigRecordW : ModuleRecord :=
  { emptyRecord with name := "t", triggerValues := [("Fire Rate", none)] }

/-- A live state differing from the neutral state only in the sort key. -/
def cexSortLive : FilterState := { neutralFilterState with sortVal := some "nameAsc" }

/-- A live state differing from the neutral state only in the active
category set. -/
def cexCatLive : FilterState := { neutralFilterState with activeCats := ["Ancestors"] }

/-! ## Helper lemmas -/

theorem ifFalseTrue (c : Prop) [Decidable c] : ((if c then false else true) = true) ↔ ¬c := by
  by_cases h : c <;> simp [h]

theorem runPoll_zero (polls : ℕ → Except String ParseResult) (scrolls : ℕ → Option String)
    (times : ℕ → ℕ) (mName : String) (i : ℕ) (st : LoopState) :
    runPoll polls scrolls times mName i 0 st = ⟨st, [], 0, LoopExit.cap⟩ := rfl

theorem runPoll_parseErr {polls : ℕ → Except String ParseResult} {scrolls : ℕ → Option String}
    {times : ℕ → ℕ} {mName : String} {i fuel : ℕ} {st : LoopState} {e : String}
    (hp : polls i = Except.error e) :
    runPoll polls scrolls times mName i (fuel + 1) st = ⟨st, [], 1, LoopExit.parseErr⟩ := by
  simp only [runPoll, hp]

theorem runPoll_stable {polls : ℕ → Except String ParseResult} {scrolls : ℕ → Option String}
    {times : ℕ → ℕ} {mName : String} {i fuel : ℕ} {st : LoopState} {p : ParseResult}
    (hp : polls i = Except.ok p)
    (hb : 3 ≤ (nextState st p).stable ∧ p.loaderVisible = false) :
    runPoll polls scrolls times mName i (fuel + 1) st =
      ⟨nextState st p, [pollSnap mName st p], 1, LoopExit.stable⟩ := by
  simp only [runPoll, hp, if_pos hb]

theorem runPoll_timeoutStep {polls : ℕ → Except String ParseResult}
    {scrolls : ℕ → Option String} {times : ℕ → ℕ} {mName : String} {i fuel : ℕ}
    {st : LoopState} {p : ParseResult}
    (hp : polls i = Except.ok p)
    (hb : ¬(3 ≤ (nextState st p).stable ∧ p.loaderVisible = false))
    (ht : (nextState st p).deduped = [] ∧ 30000 < times i) :
    runPoll polls scrolls times mName i (fuel + 1) st =
      ⟨nextState st p, [pollSnap mName st p, timeoutSnap], 1, LoopExit.timeout⟩ := by
  simp only [runPoll, hp, if_neg hb, if_pos ht]

theorem runPoll_cont {polls : ℕ → Except String ParseResult} {scrolls : ℕ → Option String}
    {times : ℕ → ℕ} {mName : String} {i fuel : ℕ} {st : LoopState} {p : ParseResult}
    (hp : polls i = Except.ok p)
    (hb : ¬(3 ≤ (nextState st p).stable ∧ p.loaderVisible = false))
    (ht : ¬((nextState st p).deduped = [] ∧ 30000 < times i))
    (hs : scrolls i = none) :
    runPoll polls scrolls times mName i (fuel + 1) st =
      ⟨(runPoll polls scrolls times mName (i + 1) fuel (nextState st p)).state,
       pollSnap mName st p :: (runPoll polls scrolls times mName (i + 1) fuel (nextState st p)).snaps,
       (runPoll polls scrolls times mName (i + 1) fuel (nextState st p)).polls + 1,
       (runPoll polls scrolls times mName (i + 1) fuel (nextState st p)).exit⟩ := by
  simp only [runPoll, hp, if_neg hb, if_neg ht, hs]

theorem runPoll_polls_le (polls : ℕ → Except String ParseResult) (scrolls : ℕ → Option String)
    (times : ℕ → ℕ) (mName : String) :
    ∀ (fuel i : ℕ) (st : LoopState),
      (runPoll polls scrolls times mName i fuel st).polls ≤ fuel := by
  intro fuel
  induction fuel with
  | zero => intro i st; simp [runPoll_zero]
  | succ n ih =>
    intro i st
    cases hp : polls i with
    | error e => rw [runPoll_parseErr hp]; dsimp only; omega
    | ok p =>
      by_cases hb : 3 ≤ (nextState st p).stable ∧ p.loaderVisible = false
      · rw [runPoll_stable hp hb]; dsimp only; omega
      · by_cases ht : (nextState st p).deduped = [] ∧ 30000 < times i
        · rw [runPoll_timeoutStep hp hb ht]; dsimp only; omega
        · cases hs : scrolls i with
          | some e => simp only [runPoll, hp, if_neg hb, if_neg ht, hs]; omega
          | none =>
            rw [runPoll_cont hp hb ht hs]
            have := ih (i + 1) (nextState st p)
            dsimp only
            omega

theorem mergeMods_ne_nil :
    ∀ (ms : List ModuleRecord) (seen : List String) (ded : List ModuleRecord),
      ded ≠ [] → (mergeMods seen ded ms).2 ≠ []
  | [], _, _, h => h
  | m :: ms, seen, ded, h => by
    rw [mergeMods]
    split
    · exact mergeMods_ne_nil ms _ _ h
    · exact mergeMods_ne_nil ms _ _ (by simp)

theorem mergeMods_nil_of_ne_nil (ms : List ModuleRecord) (h : ms ≠ []) :
    (mergeMods [] [] ms).2 ≠ [] := by
  cases ms with
  | nil => exact absurd rfl h
  | cons m ms =>
    rw [mergeMods]
    split
    · simp_all [List.contains]
    · exact mergeMods_ne_nil ms _ _ (by simp)

/-! ## Claim theorems -/

/-- C9: the polling loop of one search enters at most 60 iterations, for
every input sequence of parse results, scroll outcomes and observed
times: termination is enforced by the hard iteration cap on top of the
stability, timeout and error exits. -/
theorem poll_loop_hard_cap (setup : Option String) (polls : ℕ → Except String ParseResult)
    (scrolls : ℕ → Option String) (times : ℕ → ℕ) (moduleName : String) :
    (runSearch setup polls scrolls times moduleName).pollCount ≤ 60 := by
  cases setup with
  | some msg => simp [runSearch]
  | none =>
    have h := runPoll_polls_le polls scrolls times moduleName 60 0 initLoopState
    cases hexit : (runPoll polls scrolls times moduleName 0 60 initLoopState).exit <;>
      simp [runSearch, hexit, h]

/-- C5: in trigger mode the filtered result set does not depend on the
required-rank and reroll-count range values: overwriting all four with
arbitrary values leaves the output of the filter unchanged record for
record. -/
theorem trigger_mode_rank_reroll_immaterial (st : FilterState) (mods : List ModuleRecord)
    (a b c d : Option ℤ) (hmode : st.isTriggerMode = true) :
    updateResultsFiltered
      { st with mrMinVal := a, mrMaxVal := b, rerollMinVal := c, rerollMaxVal := d } mods =
      updateResultsFiltered st mods := by
  unfold updateResultsFiltered
  apply List.filter_congr
  intro m _
  have hmr1 :
      mrMatchB { st with mrMinVal := a, mrMaxVal := b, rerollMinVal := c, rerollMaxVal := d }
        m = true := by
    simp [mrMatchB, hmode]
  have hmr2 : mrMatchB st m = true := by simp [mrMatchB, hmode]
  have hrr1 :
      rerollMatchB
        { st with mrMinVal := a, mrMaxVal := b, rerollMinVal := c, rerollMaxVal := d }
        m = true := by
    simp [rerollMatchB, hmode]
  have hrr2 : rerollMatchB st m = true := by simp [rerollMatchB, hmode]
  simp only [modPasses, hmr1, hmr2, hrr1, hrr2]
  rfl

/-- C5 witness: instantiated at a trigger-mode state, one record, and
concrete rank/reroll bounds. -/
theorem trigger_mode_rank_reroll_immaterial_witness :
    updateResultsFiltered
      { stTrigW with
        mrMinVal := some 5, mrMaxVal := some 6, rerollMinVal := some 1,
        rerollMaxVal := some 2 } [trigRecordW] =
      updateResultsFiltered stTrigW [trigRecordW] :=
  trigger_mode_rank_reroll_immaterial stTrigW [trigRecordW] (some 5) (some 6) (some 1)
    (some 2) rfl

/-- C4: the per-attribute range check of the selected-attribute filter,
for a record possessing the attribute: an absent parsed value always
passes, and a present value passes exactly when it lies within the
configured bounds, both bounds inclusive. -/
theorem attr_range_inclusive (st : FilterState) (m : ModuleRecord) (attr : String)
    (hpos : m.attributes.contains attr = true) :
    (attrValOf m attr = none → attrOk st m attr = true) ∧
    (∀ v : ℚ, attrValOf m attr = some v →
      (attrOk st m attr = true ↔
        (∀ mn, (selRange st attr).min = some mn → mn ≤ v) ∧
        (∀ mx, (selRange st attr).max = some mx → v ≤ mx))) := by
  have hm : attr ∈ m.attributes := by simpa using hpos
  constructor
  · intro hv
    cases hmin : (selRange st attr).min <;> cases hmax : (selRange st attr).max <;>
      simp [attrOk, hm, hv, hmin, hmax]
  · intro v hv
    cases hmin : (selRange st attr).min <;> cases hmax : (selRange st attr).max <;>
      simp [attrOk, hm, hv, hmin, hmax, ifFalseTrue, not_lt]

/-- C4 witness: a record with Power = 10.0 passes the range
[10.0, 10.0], fails [10.01, 20], and a record with a null parsed Power
value passes [10.01, 20]. -/
theorem attr_range_inclusive_witness :
    attrOk (stRange ⟨some 10, some 10⟩) powerRecord "Power" = true ∧
    attrOk (stRange ⟨some (mkRat 1001 100), some 20⟩) powerRecord "Power" = false ∧
    attrOk (stRange ⟨some (mkRat 1001 100), some 20⟩) powerRecordNoVal "Power" = true := by
  refine ⟨?_, ?_, ?_⟩
  · exact ((attr_range_inclusive (stRange ⟨some 10, some 10⟩) powerRecord "Power"
      (by decide)).2 10 (by decide)).mpr (by constructor <;> (intro x hx; cases hx; decide))
  · by_contra hfalse
    have hval : attrOk (stRange ⟨some (mkRat 1001 100), some 20⟩) powerRecord "Power" = true := by
      cases h : attrOk (stRange ⟨some (mkRat 1001 100), some 20⟩) powerRecord "Power"
      · exact absurd h hfalse
      · rfl
    have h10 := ((attr_range_inclusive (stRange ⟨some (mkRat 1001 100), some 20⟩) powerRecord
      "Power" (by decide)).2 10 (by decide)).mp hval
    have := h10.1 (mkRat 1001 100) (by decide)
    revert this
    decide
  · exact (attr_range_inclusive (stRange ⟨some (mkRat 1001 100), some 20⟩) powerRecordNoVal
      "Power" (by decide)).1 (by decide)

/-- C10: in trigger mode (with the trigger attribute map built), a
record whose parsed trigger value for a filtered attribute is null or
absent fails the filter as soon as that attribute has any min or max
bound, and so never appears in the filtered output. -/
theorem trigger_null_value_excluded (st : FilterState) (m : ModuleRecord) (attr : String)
    (r : RangeQ) (mods : List ModuleRecord)
    (hmode : st.isTriggerMode = true) (hbuilt : st.triggerAttrBuilt = true)
    (hmem : (attr, r) ∈ st.triggerFilterValues)
    (hbound : r.min ≠ none ∨ r.max ≠ none)
    (hval : trigValOf m attr = none) :
    modPasses st m = false ∧ m ∉ updateResultsFiltered st mods := by
  have htm : triggerMatchB st m = false := by
    unfold triggerMatchB
    rw [hmode, hbuilt]
    simp only [Bool.and_self, if_true]
    rw [List.all_eq_false]
    refine ⟨(attr, r), hmem, ?_⟩
    rcases hbound with h | h
    · obtain ⟨mn, hmn⟩ := Option.ne_none_iff_exists'.mp h
      simp [hmn, hval]
    · obtain ⟨mx, hmx⟩ := Option.ne_none_iff_exists'.mp h
      cases hr : r.min with
      | none => simp [hr, hmx, hval]
      | some mn => simp [hr, hval]
  constructor
  · simp [modPasses, htm]
  · intro hmem2
    have hpass := (List.mem_filter.mp hmem2).2
    simp [modPasses, htm] at hpass

/-- C10 witness: instantiated at a trigger-mode state with a min bound
on one attribute and a record lacking a parsed value for it. -/
theorem trigger_null_value_excluded_witness :
    modPasses stTrigMinW trigRecordW = false ∧
    trigRecordW ∉ updateResultsFiltered stTrigMinW [trigRecordW] :=
  trigger_null_value_excluded stTrigMinW trigRecordW "Fire Rate" ⟨some 1, none⟩ [trigRecordW]
    rfl rfl (by decide) (by simp) (by decide)

/-- C6: record store insertion is idempotent on the identity key
name-price-sellerName: inserting a record twice equals inserting it
once; a record whose identity is already stored leaves the store
unchanged (so the first-seen fields are kept); and double insertion of a
fresh named record stores exactly one record with that identity. -/
theorem record_insert_idempotent (isTrig : Bool) (store : List ModuleRecord)
    (r : ModuleRecord) :
    appendModule isTrig (appendModule isTrig store r) r = appendModule isTrig store r ∧
    ((∃ x ∈ store, sameIdentity x r = true) → appendModule isTrig store r = store) ∧
    (¬(r.name = "") → store.countP (fun x => sameIdentity x r) = 0 →
      (appendModule isTrig (appendModule isTrig store r) r).countP
        (fun x => sameIdentity x r) = 1) := by
  have hkeep : sameIdentity (enrichModule isTrig r) r = true := by
    simp [sameIdentity, enrichModule]
  have hidem :
      appendModule isTrig (appendModule isTrig store r) r = appendModule isTrig store r := by
    by_cases hn : r.name == ""
    · simp [appendModule, hn]
    · by_cases ha : store.any (fun x => sameIdentity x r)
      · simp [appendModule, hn, ha]
      · simp [appendModule, hn, ha, hkeep]
  refine ⟨hidem, ?_, ?_⟩
  · rintro ⟨x, hx, hsame⟩
    have ha : store.any (fun x => sameIdentity x r) = true :=
      List.any_eq_true.mpr ⟨x, hx, hsame⟩
    by_cases hn : r.name == "" <;> simp [appendModule, hn, ha]
  · intro hn hcount
    have hn2 : (r.name == "") = false := by
      simp [hn]
    have ha : store.any (fun x => sameIdentity x r) = false := by
      rw [List.any_eq_false]
      intro x hx
      exact (List.countP_eq_zero.mp hcount) x hx
    rw [hidem]
    simp only [appendModule, hn2, Bool.false_eq_true, if_false, ha, if_false]
    rw [List.countP_append, hcount]
    simp [List.countP_cons, hkeep]

/-- C1: with parse passes reporting visible counts 5, 5, 5, 5 and the
loader hidden from the second poll onward, the polling loop stops via
the stability exit after exactly the 4th poll: three consecutive
unchanged counts with the loader hidden. -/
theorem stability_termination_four_polls
    (polls : ℕ → Except String ParseResult) (scrolls : ℕ → Option String)
    (times : ℕ → ℕ) (mName : String) (p0 p1 p2 p3 : ParseResult)
    (h0 : polls 0 = Except.ok p0) (h1 : polls 1 = Except.ok p1)
    (h2 : polls 2 = Except.ok p2) (h3 : polls 3 = Except.ok p3)
    (l0 : p0.modules.length = 5) (l1 : p1.modules.length = 5)
    (l2 : p2.modules.length = 5) (l3 : p3.modules.length = 5)
    (v1 : p1.loaderVisible = false) (v2 : p2.loaderVisible = false)
    (v3 : p3.loaderVisible = false)
    (sc0 : scrolls 0 = none) (sc1 : scrolls 1 = none) (sc2 : scrolls 2 = none) :
    (runSearch none polls scrolls times mName).pollCount = 4 ∧
      (runSearch none polls scrolls times mName).exit = SearchExit.stable := by
  set st1 := nextState initLoopState p0 with hst1
  set st2 := nextState st1 p1 with hst2
  set st3 := nextState st2 p2 with hst3
  set st4 := nextState st3 p3 with hst4
  have hm0 : p0.modules ≠ [] := by intro h; rw [h] at l0; simp at l0
  have hL1 : st1.lastCount = 5 := by rw [hst1]; simp [nextState, initLoopState, itemCount, l0]
  have hS1 : st1.stable = 0 := by rw [hst1]; simp [nextState, initLoopState, itemCount, l0]
  have hD1 : st1.deduped ≠ [] := mergeMods_nil_of_ne_nil p0.modules hm0
  have hL2 : st2.lastCount = 5 := by
    rw [hst2]; simp [nextState, itemCount, l1, hL1]
  have hS2 : st2.stable = 1 := by
    rw [hst2]; simp [nextState, itemCount, l1, hL1, hS1]
  have hD2 : st2.deduped ≠ [] := mergeMods_ne_nil p1.modules _ _ hD1
  have hL3 : st3.lastCount = 5 := by
    rw [hst3]; simp [nextState, itemCount, l2, hL2]
  have hS3 : st3.stable = 2 := by
    rw [hst3]; simp [nextState, itemCount, l2, hL2, hS2]
  have hD3 : st3.deduped ≠ [] := mergeMods_ne_nil p2.modules _ _ hD2
  have hS4 : st4.stable = 3 := by
    rw [hst4]; simp [nextState, itemCount, l3, hL3, hS3]
  have hb0 : ¬(3 ≤ st1.stable ∧ p0.loaderVisible = false) := by
    rintro ⟨hle, _⟩; rw [hS1] at hle; omega
  have hb1 : ¬(3 ≤ st2.stable ∧ p1.loaderVisible = false) := by
    rintro ⟨hle, _⟩; rw [hS2] at hle; omega
  have hb2 : ¬(3 ≤ st3.stable ∧ p2.loaderVisible = false) := by
    rintro ⟨hle, _⟩; rw [hS3] at hle; omega
  have hb3 : 3 ≤ st4.stable ∧ p3.loaderVisible = false := ⟨le_of_eq hS4.symm, v3⟩
  have ht0 : ¬(st1.deduped = [] ∧ 30000 < times 0) := fun h => hD1 h.1
  have ht1 : ¬(st2.deduped = [] ∧ 30000 < times 1) := fun h => hD2 h.1
  have ht2 : ¬(st3.deduped = [] ∧ 30000 < times 2) := fun h => hD3 h.1
  have e0 : runPoll polls scrolls times mName 0 60 initLoopState =
      ⟨(runPoll polls scrolls times mName 1 59 st1).state,
       pollSnap mName initLoopState p0 ::
         (runPoll polls scrolls times mName 1 59 st1).snaps,
       (runPoll polls scrolls times mName 1 59 st1).polls + 1,
       (runPoll polls scrolls times mName 1 59 st1).exit⟩ :=
    runPoll_cont h0 hb0 ht0 sc0
  have e1 : runPoll polls scrolls times mName 1 59 st1 =
      ⟨(runPoll polls scrolls times mName 2 58 st2).state,
       pollSnap mName st1 p1 :: (runPoll polls scrolls times mName 2 58 st2).snaps,
       (runPoll polls scrolls times mName 2 58 st2).polls + 1,
       (runPoll polls scrolls times mName 2 58 st2).exit⟩ :=
    runPoll_cont h1 hb1 ht1 sc1
  have e2 : runPoll polls scrolls times mName 2 58 st2 =
      ⟨(runPoll polls scrolls times mName 3 57 st3).state,
       pollSnap mName st2 p2 :: (runPoll polls scrolls times mName 3 57 st3).snaps,
       (runPoll polls scrolls times mName 3 57 st3).polls + 1,
       (runPoll polls scrolls times mName 3 57 st3).exit⟩ :=
    runPoll_cont h2 hb2 ht2 sc2
  have e3 : runPoll polls scrolls times mName 3 57 st3 =
      ⟨st4, [pollSnap mName st3 p3], 1, LoopExit.stable⟩ :=
    runPoll_stable h3 hb3
  have q3 : (runPoll polls scrolls times mName 3 57 st3).polls = 1 := by rw [e3]
  have x3 : (runPoll polls scrolls times mName 3 57 st3).exit = LoopExit.stable := by rw [e3]
  have q2 : (runPoll polls scrolls times mName 2 58 st2).polls = 2 := by
    rw [e2]; dsimp only; rw [q3]
  have x2 : (runPoll polls scrolls times mName 2 58 st2).exit = LoopExit.stable := by
    rw [e2]; dsimp only; rw [x3]
  have q1 : (runPoll polls scrolls times mName 1 59 st1).polls = 3 := by
    rw [e1]; dsimp only; rw [q2]
  have x1 : (runPoll polls scrolls times mName 1 59 st1).exit = LoopExit.stable := by
    rw [e1]; dsimp only; rw [x2]
  have q0 : (runPoll polls scrolls times mName 0 60 initLoopState).polls = 4 := by
    rw [e0]; dsimp only; rw [q1]
  have x0 : (runPoll polls scrolls times mName 0 60 initLoopState).exit = LoopExit.stable := by
    rw [e0]; dsimp only; rw [x1]
  constructor <;> simp [runSearch, x0, q0]

/-- C1 witness: instantiated with a scripted page surface returning the
same five records on every poll with the loader hidden throughout. -/
theorem stability_termination_four_polls_witness :
    (runSearch none pollsStableW scrollsNoneW timesZeroW "").pollCount = 4 ∧
    (runSearch none pollsStableW scrollsNoneW timesZeroW "").exit = SearchExit.stable :=
  stability_termination_four_polls pollsStableW scrollsNoneW timesZeroW ""
    ⟨recsW, false⟩ ⟨recsW, false⟩ ⟨recsW, false⟩ ⟨recsW, false⟩
    rfl rfl rfl rfl rfl rfl rfl rfl rfl rfl rfl rfl rfl rfl

/-- C3 loop lemma: starting at iteration i with nothing collected and
the stability counter at i, if every remaining poll up to N parses to an
empty batch (the loader staying visible whenever the stability counter
could otherwise break), the first observed elapsed time over 30000 ms
being at iteration N, then the loop exits at iteration N with the
timeout snapshot as its last emitted event. -/
theorem zero_timeout_loop (polls : ℕ → Except String ParseResult) (loaders : ℕ → Bool)
    (scrolls : ℕ → Option String) (times : ℕ → ℕ) (mName : String) (N : ℕ) :
    ∀ (fuel : ℕ), ∀ (i : ℕ), i ≤ N → N < i + fuel →
      (∀ j, i ≤ j → j ≤ N → polls j = Except.ok ⟨[], loaders j⟩) →
      (∀ j, 2 ≤ j → j ≤ N → loaders j = true) →
      (∀ j, i ≤ j → j < N → scrolls j = none) →
      (∀ j, i ≤ j → j < N → times j ≤ 30000) →
      30000 < times N →
      ∃ pre : List Snapshot,
        runPoll polls scrolls times mName i fuel ⟨[], [], 0, i⟩ =
          ⟨⟨[], [], 0, N + 1⟩, pre ++ [timeoutSnap], N - i + 1, LoopExit.timeout⟩ := by
  intro fuel
  induction fuel with
  | zero => intro i hiN hlt; omega
  | succ n ih =>
    intro i hiN hlt hpoll hld hsc htle htN
    have hpi : polls i = Except.ok ⟨[], loaders i⟩ := hpoll i le_rfl hiN
    have hns : nextState ⟨[], [], 0, i⟩ ⟨[], loaders i⟩ = ⟨[], [], 0, i + 1⟩ := by
      simp [nextState, mergeMods, itemCount]
    have hb : ¬(3 ≤ (nextState ⟨[], [], 0, i⟩ ⟨[], loaders i⟩).stable ∧
        (⟨[], loaders i⟩ : ParseResult).loaderVisible = false) := by
      rw [hns]
      rintro ⟨hle, hl⟩
      dsimp only at hle hl
      have h2i : 2 ≤ i := by omega
      rw [hld i h2i hiN] at hl
      exact absurd hl (by simp)
    by_cases hi : i = N
    · subst hi
      have htc : (nextState ⟨[], [], 0, i⟩ ⟨[], loaders i⟩).deduped = [] ∧
          30000 < times i := by
        rw [hns]; exact ⟨rfl, htN⟩
      refine ⟨[pollSnap mName ⟨[], [], 0, i⟩ ⟨[], loaders i⟩], ?_⟩
      rw [runPoll_timeoutStep hpi hb htc, hns]
      simp
    · have hilt : i < N := lt_of_le_of_ne hiN hi
      have hsi : scrolls i = none := hsc i le_rfl hilt
      have hti : ¬((nextState ⟨[], [], 0, i⟩ ⟨[], loaders i⟩).deduped = [] ∧
          30000 < times i) := by
        rw [hns]
        rintro ⟨_, habs⟩
        have := htle i le_rfl hilt
        omega
      obtain ⟨pre, hpre⟩ := ih (i + 1) (by omega) (by omega)
        (fun j hj1 hj2 => hpoll j (by omega) hj2) hld
        (fun j hj1 hj2 => hsc j (by omega) hj2)
        (fun j hj1 hj2 => htle j (by omega) hj2) htN
      refine ⟨pollSnap mName ⟨[], [], 0, i⟩ ⟨[], loaders i⟩ :: pre, ?_⟩
      rw [runPoll_cont hpi hb hti hsi, hns, hpre]
      have harith : N - (i + 1) + 1 + 1 = N - i + 1 := by omega
      simp [harith]

/-- C3: when no record is ever collected (every parse pass returns an
empty batch, the loader staying visible while the page hangs) and the
elapsed time observed at iteration N < 60 is the first to exceed
30000 ms, the search ends with exit classification timeout after
exactly N + 1 polls, its last emitted snapshot being the terminal
timeout snapshot (finished = true, error = "timeout"). -/
theorem zero_result_timeout (polls : ℕ → Except String ParseResult) (loaders : ℕ → Bool)
    (scrolls : ℕ → Option String) (times : ℕ → ℕ) (mName : String) (N : ℕ)
    (hpoll : ∀ j, j ≤ N → polls j = Except.ok ⟨[], loaders j⟩)
    (hld : ∀ j, 2 ≤ j → j ≤ N → loaders j = true)
    (hsc : ∀ j, j < N → scrolls j = none)
    (htle : ∀ j, j < N → times j ≤ 30000)
    (htN : 30000 < times N)
    (hN : N < 60) :
    (runSearch none polls scrolls times mName).exit = SearchExit.timeout ∧
    (runSearch none polls scrolls times mName).pollCount = N + 1 ∧
    (runSearch none polls scrolls times mName).snapshots.getLast? = some timeoutSnap := by
  obtain ⟨pre, hpre⟩ := zero_timeout_loop polls loaders scrolls times mName N 60 0
    (by omega) (by omega) (fun j _ h2 => hpoll j h2) hld (fun j _ h2 => hsc j h2)
    (fun j _ h2 => htle j h2) htN
  have hinit : runPoll polls scrolls times mName 0 60 initLoopState =
      ⟨⟨[], [], 0, N + 1⟩, pre ++ [timeoutSnap], N - 0 + 1, LoopExit.timeout⟩ := hpre
  refine ⟨?_, ?_, ?_⟩ <;> simp [runSearch, hinit, List.getLast?_concat]

/-- C3 witness: empty parse batches with the loader visible and a clock
gaining 10 seconds per poll; iteration 3 is the first past 30 s. -/
theorem zero_result_timeout_witness :
    (runSearch none pollsEmptyW scrollsNoneW timesRampW "").exit = SearchExit.timeout ∧
    (runSearch none pollsEmptyW scrollsNoneW timesRampW "").pollCount = 3 + 1 ∧
    (runSearch none pollsEmptyW scrollsNoneW timesRampW "").snapshots.getLast? =
      some timeoutSnap :=
  zero_result_timeout pollsEmptyW (fun _ => true) scrollsNoneW timesRampW "" 3
    (fun _ _ => rfl) (fun _ _ _ => rfl) (fun _ _ => rfl)
    (fun j hj => by simp only [timesRampW]; omega)
    (by simp [timesRampW]) (by omega)

/-- C2 counterexample: a search whose very first parse pass throws ends
through the finalize path, so its terminal snapshot has finished = true
but carries no error classification at all, contradicting the claim
that every exception-terminated search surfaces a non-empty error. -/
theorem parse_error_final_snapshot_lacks_error :
    (runSearch none pollsErrW scrollsNoneW timesZeroW "").exit = SearchExit.parseError ∧
    (runSearch none pollsErrW scrollsNoneW timesZeroW "").snapshots =
      [⟨[], true, none⟩] := by
  constructor <;> rfl

/-- C2 amended: a search failing during setup emits exactly one terminal
snapshot with finished = true and the thrown message as its error, and a
scroll-injection failure likewise ends with a terminal error snapshot;
but a search terminated by a parse exception ends through the normal
finalize path, its terminal snapshot having finished = true and no error
field. -/
theorem terminal_error_snapshots (polls : ℕ → Except String ParseResult)
    (scrolls : ℕ → Option String) (times : ℕ → ℕ) (mName msg : String) :
    (runSearch (some msg) polls scrolls times mName).snapshots =
      [⟨[], true, some msg⟩] ∧
    ((runSearch none polls scrolls times mName).exit = SearchExit.scrollError →
      ∃ e, (runSearch none polls scrolls times mName).snapshots.getLast? =
        some ⟨[], true, some e⟩) ∧
    ((runSearch none polls scrolls times mName).exit = SearchExit.parseError →
      ∃ d, (runSearch none polls scrolls times mName).snapshots.getLast? =
        some ⟨d, true, none⟩) := by
  refine ⟨rfl, ?_, ?_⟩
  · intro hex
    cases hE : (runPoll polls scrolls times mName 0 60 initLoopState).exit with
    | stable => simp [runSearch, hE] at hex
    | parseErr => simp [runSearch, hE] at hex
    | timeout => simp [runSearch, hE] at hex
    | cap => simp [runSearch, hE] at hex
    | scrollErr e =>
      refine ⟨e, ?_⟩
      simp [runSearch, hE, List.getLast?_concat]
  · intro hex
    cases hE : (runPoll polls scrolls times mName 0 60 initLoopState).exit with
    | stable => simp [runSearch, hE] at hex
    | scrollErr e => simp [runSearch, hE] at hex
    | timeout => simp [runSearch, hE] at hex
    | cap => simp [runSearch, hE] at hex
    | parseErr =>
      refine ⟨filterByName mName
        (runPoll polls scrolls times mName 0 60 initLoopState).state.deduped, ?_⟩
      simp [runSearch, hE, finalSnap, List.getLast?_concat]

/-- C2 witness: instantiated with a setup failure and with a first-poll
parse failure. -/
theorem terminal_error_snapshots_witness :
    (runSearch (some "load-failed") pollsErrW scrollsNoneW timesZeroW "").snapshots =
      [⟨[], true, some "load-failed"⟩] ∧
    ∃ d, (runSearch none pollsErrW scrollsNoneW timesZeroW "").snapshots.getLast? =
      some ⟨d, true, none⟩ := by
  refine ⟨(terminal_error_snapshots pollsErrW scrollsNoneW timesZeroW "" "load-failed").1, ?_⟩
  exact (terminal_error_snapshots pollsErrW scrollsNoneW timesZeroW "" "x").2.2 rfl

theorem takeWhile_append_all {p : Char → Bool} :
    ∀ (l1 l2 : List Char), (∀ c ∈ l1, p c = true) →
      (l1 ++ l2).takeWhile p = l1 ++ l2.takeWhile p := by
  intro l1
  induction l1 with
  | nil => intro l2 _; simp
  | cons c cs ih =>
    intro l2 h
    rw [List.cons_append, List.takeWhile_cons, h c (List.mem_cons_self _ _),
      ih l2 (fun x hx => h x (List.mem_cons_of_mem _ hx))]
    rfl

theorem digit_toLower {c : Char} (h : c ∈ digitChars) : Char.toLower c = c := by
  simp [digitChars] at h
  rcases h with rfl | rfl | rfl | rfl | rfl | rfl | rfl | rfl | rfl | rfl <;> decide

theorem digit_isDigit {c : Char} (h : c ∈ digitChars) : c.isDigit = true := by
  simp [digitChars] at h
  rcases h with rfl | rfl | rfl | rfl | rfl | rfl | rfl | rfl | rfl | rfl <;> decide

theorem map_toLower_digits :
    ∀ (l : List Char), (∀ c ∈ l, c ∈ digitChars) → l.map Char.toLower = l := by
  intro l
  induction l with
  | nil => intro _; rfl
  | cons a t ih =>
    intro h
    simp only [List.map_cons, digit_toLower (h a (List.mem_cons_self _ _)),
      ih (fun x hx => h x (List.mem_cons_of_mem _ hx))]

theorem matchNumUnit_days (d : List Char) (hne : d ≠ [])
    (hdig : ∀ c ∈ d, c.isDigit = true) :
    matchNumUnit (d ++ (" days ago").data) = some (⟨d, []⟩, AgeUnit.day) := by
  have h1 : (d ++ (" days ago").data).takeWhile Char.isDigit = d := by
    rw [takeWhile_append_all _ _ hdig,
      show (" days ago").data.takeWhile Char.isDigit = [] from rfl, List.append_nil]
  have h2 : (d ++ (" days ago").data).drop d.length = (" days ago").data :=
    List.drop_left _ _
  simp only [matchNumUnit, h1, h2]
  rw [if_neg (by simpa using hne)]
  rfl

theorem matchNumUnit_hours (d : List Char) (hne : d ≠ [])
    (hdig : ∀ c ∈ d, c.isDigit = true) :
    matchNumUnit (d ++ (" hours ago").data) = some (⟨d, []⟩, AgeUnit.hour) := by
  have h1 : (d ++ (" hours ago").data).takeWhile Char.isDigit = d := by
    rw [takeWhile_append_all _ _ hdig,
      show (" hours ago").data.takeWhile Char.isDigit = [] from rfl, List.append_nil]
  have h2 : (d ++ (" hours ago").data).drop d.length = (" hours ago").data :=
    List.drop_left _ _
  simp only [matchNumUnit, h1, h2]
  rw [if_neg (by simpa using hne)]
  rfl

theorem findNumUnit_days (d : List Char) (hne : d ≠ [])
    (hdig : ∀ c ∈ d, c.isDigit = true) :
    findNumUnit (d ++ (" days ago").data) = some (⟨d, []⟩, AgeUnit.day) := by
  cases d with
  | nil => exact absurd rfl hne
  | cons c cs =>
    rw [List.cons_append, findNumUnit, ← List.cons_append,
      matchNumUnit_days _ hne hdig]

theorem findNumUnit_hours (d : List Char) (hne : d ≠ [])
    (hdig : ∀ c ∈ d, c.isDigit = true) :
    findNumUnit (d ++ (" hours ago").data) = some (⟨d, []⟩, AgeUnit.hour) := by
  cases d with
  | nil => exact absurd rfl hne
  | cons c cs =>
    rw [List.cons_append, findNumUnit, ← List.cons_append,
      matchNumUnit_hours _ hne hdig]

/-- C8 counterexample: the day-phrased entry "0 days ago" parses to an
hour value of exactly zero, contradicting the claim that day-phrased
entries never yield zero hours. -/
theorem day_phrase_zero_hours : parseAgeToHours "0 days ago" = some 0 := by
  have h : findNumUnit (lowerChars "0 days ago") = some (⟨['0'], []⟩, AgeUnit.day) := by
    decide
  have h0 : digitVal '0' = 0 := by decide
  rw [parseAgeToHours, h]
  norm_num [numTokVal, digitsVal, fracVal, h0]

/-- C8 amended: for every numeral N (a nonempty digit string), the
age-in-hours parser maps "N days ago" to N multiplied by 24 and
"N hours ago" to N; day-phrased entries therefore yield zero only for
N = 0. -/
theorem age_day_hours_conversion (ds : List Char) (hne : ds ≠ [])
    (hd : ∀ c ∈ ds, c ∈ digitChars) :
    parseAgeToHours (String.mk (ds ++ (" days ago").data)) = some (digitsVal ds * 24) ∧
    parseAgeToHours (String.mk (ds ++ (" hours ago").data)) = some (digitsVal ds) ∧
    (digitsVal ds ≠ 0 → digitsVal ds * 24 ≠ 0) := by
  have hdig : ∀ c ∈ ds, c.isDigit = true := fun c hc => digit_isDigit (hd c hc)
  have hlowd : lowerChars (String.mk (ds ++ (" days ago").data)) =
      ds ++ (" days ago").data := by
    rw [lowerChars, show (String.mk (ds ++ (" days ago").data)).data =
      ds ++ (" days ago").data from rfl, List.map_append, map_toLower_digits ds hd]
    rfl
  have hlowh : lowerChars (String.mk (ds ++ (" hours ago").data)) =
      ds ++ (" hours ago").data := by
    rw [lowerChars, show (String.mk (ds ++ (" hours ago").data)).data =
      ds ++ (" hours ago").data from rfl, List.map_append, map_toLower_digits ds hd]
    rfl
  refine ⟨?_, ?_, ?_⟩
  · rw [parseAgeToHours, hlowd, findNumUnit_days ds hne hdig]
    simp [numTokVal, fracVal, digitsVal]
  · rw [parseAgeToHours, hlowh, findNumUnit_hours ds hne hdig]
    simp [numTokVal, fracVal, digitsVal]
  · intro h
    exact mul_ne_zero h (by norm_num)

/-- C8 witness: instantiated at the numeral 3. -/
theorem age_day_hours_conversion_witness :
    parseAgeToHours (String.mk (['3'] ++ (" days ago").data)) =
      some (digitsVal ['3'] * 24) ∧
    parseAgeToHours (String.mk (['3'] ++ (" hours ago").data)) = some (digitsVal ['3']) ∧
    (digitsVal ['3'] ≠ 0 → digitsVal ['3'] * 24 ≠ 0) :=
  age_day_hours_conversion ['3'] (by decide) (by decide)

/-- C7 counterexample: the dirty-state contract fails as stated, at two
concrete inputs. With no profile selected, a live state differing from
the neutral state only in the sort key leaves the save control disabled
(hasAnyFilterSet never checks the sort key); with a profile saved from
the neutral state, a live state differing only in the active category
set leaves it disabled too (getState never captures categories). -/
theorem profile_dirty_state_counterexample :
    ¬claimC7Stated false (specLiveState neutralFilterState) none cexSortLive ∧
    ¬claimC7Stated true (specLiveState neutralFilterState)
      (some (getState neutralFilterState)) cexCatLive := by
  unfold claimC7Stated
  constructor <;> decide

theorem hasAnyFilterSet_iff (st : FilterState) :
    hasAnyFilterSet st = true ↔ anyFieldSetSpec st := by
  cases htm : st.isTriggerMode <;>
    (simp [hasAnyFilterSet, getState, anyFieldSetSpec, htm, Option.isSome_iff_ne_none,
      List.isEmpty_iff, List.any_eq_true, bne_iff_ne]; aesop)

/-- C7 amended: the save control is enabled iff either a profile is
selected and the captured live state (all profile-captured filter
fields, including the sort key but excluding the active category set)
differs from the stored snapshot, or no profile is selected and some
mode-applicable captured filter field other than the sort key is set.
In particular the control is disabled right after saving, flips to
enabled under any mutation that changes a captured field, and flips
back to disabled when a profile state is reloaded (in ancestor mode,
with an applicable sort value). -/
theorem profile_dirty_state_amended (selected : Bool) (saved : Option ProfileState)
    (st : FilterState) :
    (saveEnabled selected saved st = true ↔
      ((selected = true ∧ saved ≠ some (getState st)) ∨
       (selected = false ∧ anyFieldSetSpec st))) ∧
    saveEnabled true (some (getState st)) st = false ∧
    (∀ st2 : FilterState, getState st2 ≠ getState st →
      saveEnabled true (some (getState st)) st2 = true) ∧
    (∀ p : ProfileState, st.isTriggerMode = false → p.triggerFilters = none →
      sortApplies st p →
      getState (applyState st p) = p ∧
      saveEnabled true (some p) (applyState st p) = false) := by
  refine ⟨?_, ?_, ?_, ?_⟩
  · cases selected with
    | true =>
      simp [saveEnabled, isCurrentStateDirty]
      exact ne_comm
    | false => simp [saveEnabled, hasAnyFilterSet_iff]
  · simp [saveEnabled, isCurrentStateDirty]
  · intro st2 hne
    simp [saveEnabled, isCurrentStateDirty]
    exact fun h => hne h
  · intro p hmode htrig hsort
    obtain ⟨hs1, hs2⟩ := hsort
    have hgs : getState (applyState st p) = p := by
      rcases p with ⟨a1, a2, a3, a4, a5, a6, a7, a8, a9, a10, a11, a12, a13, a14, a15,
        a16, a17, a18⟩
      dsimp only at htrig
      subst htrig
      cases a18 with
      | none =>
        have hstv : st.sortVal = none := hs1 rfl
        simp [getState, applyState, hmode, hstv]
      | some s =>
        obtain ⟨hsne, hstv⟩ := hs2 s rfl
        obtain ⟨cur, hcur⟩ := Option.ne_none_iff_exists'.mp hstv
        simp [getState, applyState, hmode, hcur, hsne]
    exact ⟨hgs, by simp [saveEnabled, isCurrentStateDirty, hgs]⟩

/-- C7 witness: with no profile selected a price bound enables the save
control; right after saving, the control is disabled; reloading a saved
ancestor-mode profile state leaves it disabled. -/
theorem profile_dirty_state_amended_witness :
    saveEnabled false none { neutralFilterState with priceMinVal := some 5 } = true ∧
    saveEnabled true (some (getState neutralFilterState)) neutralFilterState = false ∧
    saveEnabled true (some (getState cexSortLive))
      (applyState neutralFilterState (getState cexSortLive)) = false := by
  refine ⟨?_, ?_, ?_⟩
  · exact (profile_dirty_state_amended false none
      { neutralFilterState with priceMinVal := some 5 }).1.mpr
      (Or.inr ⟨rfl, Or.inl (by decide)⟩)
  · exact (profile_dirty_state_amended true (some (getState neutralFilterState))
      neutralFilterState).2.1
  · refine ((profile_dirty_state_amended true (some (getState cexSortLive))
      neutralFilterState).2.2.2 (getState cexSortLive) rfl rfl ?_).2
    refine ⟨fun h => Option.noConfusion h, fun s hs => ?_⟩
    have hse := Option.some.inj hs
    subst hse
    exact ⟨by decide, by decide⟩

/-- C6 witness: double insertion of one concrete record into the empty
store yields exactly one stored record. -/
theorem record_insert_idempotent_witness :
    appendModule false (appendModule false [] (namedRecord "a")) (namedRecord "a") =
      appendModule false [] (namedRecord "a") ∧
    (appendModule false (appendModule false [] (namedRecord "a")) (namedRecord "a")).countP
      (fun x => sameIdentity x (namedRecord "a")) = 1 := by
  refine ⟨(record_insert_idempotent false [] (namedRecord "a")).1, ?_⟩
  exact (record_insert_idempotent false [] (namedRecord "a")).2.2 (by decide) (by decide)

end TfdMarket
